import Mathlib

/-!
Verification of the shift-calculator core of the Roster-La-Protea repository
(src/src/supabaseClient.ts). The embedding below translates the data model
(StaffMember, ShiftOverride, DayStatus, ShiftState) and the four operations
the specification covers: isStaffWorking, calculateShiftState, getShiftTimes
and handleQuickCycle.

Modelling conventions:
- JS `%` on integers is truncated remainder, embedded as Int.tmod; JS
  Math.floor division is embedded as Int.fdiv.
- A JS Date built by `new Date(y, m - 1, d)` is modelled at day granularity:
  its local-midnight timestamp is `civil day number * 86400000`, i.e. a
  fixed-offset timezone with no daylight-saving shifts, which is exactly the
  date-only arithmetic the specification prescribes.
- NaN propagation from unparseable date strings is modelled with Option:
  `none` plays the role of NaN, and the final `NaN < patternOn` comparison
  (false in JS) becomes the `none => false` branch of isStaffWorking.
-/

namespace Roster

inductive ShiftType
  | Normal
  | Half
deriving DecidableEq

inductive EmploymentStatus
  | Permanent
  | Casual
deriving DecidableEq

/-- Embeds `interface ShiftOverride` (lines 16-22): optional fields become Option. -/
structure ShiftOverride where
  date : String
  startTime : Option String
  endTime : Option String
  isDayOff : Option Bool
  shiftType : Option ShiftType
deriving DecidableEq

/-- Embeds `interface StaffMember` (lines 24-34). -/
structure StaffMember where
  id : String
  name : String
  role : String
  cycleStartDate : String
  patternOn : Nat
  patternOff : Nat
  shiftType : ShiftType
  status : EmploymentStatus
  overrides : Option (List ShiftOverride)
deriving DecidableEq

/-- Embeds `interface DayStatus` (lines 36-42). The live `date : Date` object is
omitted: the embedded operations read only `fullDateStr`. -/
structure DayStatus where
  isWorkDay : Bool
  dayName : String
  dayNumber : Nat
  fullDateStr : String
deriving DecidableEq

/-- Splits a character list at every dash, keeping empty components, exactly
as JS `str.split(\x27-\x27)` does. Structural recursion on the character list. -/
def splitDashAux : List Char → List Char → List (List Char)
  | [], acc => [acc.reverse]
  | c :: rest, acc =>
      if c = '-' then acc.reverse :: splitDashAux rest []
      else splitDashAux rest (c :: acc)

def splitDash (s : String) : List (List Char) :=
  splitDashAux s.data []

/-- Models JS `Number(component)` on the components produced by splitting an
ISO date string: a nonempty all-digit component evaluates to its decimal
value, anything else to NaN (`none`). (JS Number has further coercions (an
empty string gives 0, leading signs, whitespace, hex); those inputs cannot
occur in well-formed `YYYY-MM-DD` strings, the domain the specification
restricts attention to.) -/
def digitsToNat? (cs : List Char) : Option Nat :=
  if cs = [] then none
  else if cs.all (fun c => c.isDigit) then
    some (cs.foldl (fun n c => 10 * n + (c.toNat - 48)) 0)
  else none

/-- Models `str.split(\x27-\x27).map(Number)` followed by destructuring the
first three elements (lines 73, 76): `none` whenever any of the three is NaN. -/
def parseDate (s : String) : Option (Nat × Nat × Nat) :=
  match (splitDash s).map digitsToNat? with
  | some y :: some m :: some d :: _ => some (y, m, d)
  | _ => none

/-- Milliseconds per day, the `1000 * 60 * 60 * 24` of line 80. -/
def msPerDay : Int := 1000 * 60 * 60 * 24

/-- The JS Date constructor maps a year argument in 0..99 to 1900 + year. -/
def jsYear (y : Int) : Int := if 0 ≤ y ∧ y ≤ 99 then 1900 + y else y

/-- Number of days from 1970-01-01 to the Gregorian calendar date y-m-d
(valid for month 1..12; the day argument may be out of range and rolls over,
matching ECMA MakeDay). Standard civil-from-days arithmetic. -/
def daysFromCivil (y m d : Int) : Int :=
  let y2 := if m ≤ 2 then y - 1 else y
  let era := (if 0 ≤ y2 then y2 else y2 - 399).tdiv 400
  let yoe := y2 - era * 400
  let mp := (m + 9).emod 12
  let doy := (153 * mp + 2).tdiv 5 + d - 1
  let doe := yoe * 365 + yoe.tdiv 4 - yoe.tdiv 100 + doy
  era * 146097 + doe - 719468

/-- Day-granularity model of `new Date(y, m0, d)` with zero-based month m0:
out-of-range months roll into adjacent years (ECMA MakeDay) and two-digit
years map to 1900 + y. Returns the local-midnight timestamp in whole days. -/
def jsMakeDay (y m0 d : Int) : Int :=
  daysFromCivil (jsYear y + m0.fdiv 12) (m0.emod 12 + 1) d

/-- Timestamp in whole days of the JS Date built from a parsed `(y, m, d)`
triple by `new Date(y, m - 1, d)` (lines 74, 77). -/
def civilOf (p : Nat × Nat × Nat) : Int :=
  jsMakeDay (p.1 : Int) ((p.2.1 : Int) - 1) (p.2.2 : Int)

/-- Lines 73-80 of isStaffWorking: parse both date strings, subtract the
local-midnight timestamps and Math.floor-divide by msPerDay. `none` models
NaN from an unparseable string. -/
def diffDays (staff : StaffMember) (targetDateStr : String) : Option Int :=
  match parseDate staff.cycleStartDate, parseDate targetDateStr with
  | some cs, some t =>
      some ((civilOf t * msPerDay - civilOf cs * msPerDay).fdiv msPerDay)
  | _, _ => none

/-- Line 82: `staff.patternOn + staff.patternOff`. -/
def totalCycleLength (staff : StaffMember) : Int :=
  (staff.patternOn : Int) + (staff.patternOff : Int)

/-- Line 83: `((diffDays % totalCycleLength) + totalCycleLength) %
totalCycleLength`, with JS `%` embedded as Int.tmod. -/
def dayInCycle (staff : StaffMember) (targetDateStr : String) : Option Int :=
  (diffDays staff targetDateStr).map fun dd =>
    (dd.tmod (totalCycleLength staff) + totalCycleLength staff).tmod
      (totalCycleLength staff)

/-- Embeds `isStaffWorking` (lines 72-86). The `none` branch models the JS outcome
on NaN: `NaN < patternOn` is false. -/
def isStaffWorking (staff : StaffMember) (targetDateStr : String) : Bool :=
  match dayInCycle staff targetDateStr with
  | some dic => decide (dic < (staff.patternOn : Int))
  | none => false

inductive VisualType
  | Solid
  | Hollow
  | None
  | Dash
deriving DecidableEq

/-- The `ShiftType | \x27Off\x27` union of the ShiftState interface. -/
inductive EffectiveShiftType
  | Normal
  | Half
  | Off
deriving DecidableEq

/-- Embeds `interface ShiftState` (lines 88-93). -/
structure ShiftState where
  isWorking : Bool
  shiftType : EffectiveShiftType
  visualType : VisualType
  label : String
deriving DecidableEq

/-- Models `staff.overrides?.find(o => o.date === dateStr)` (lines 96, 119). -/
def findOverride (staff : StaffMember) (dateStr : String) : Option ShiftOverride :=
  match staff.overrides with
  | none => none
  | some l => l.find? (fun o => o.date == dateStr)

/-- Embeds `calculateShiftState` (lines 95-116). Truthiness of `override?.isDayOff`
is `(…).getD false`; truthiness of `override?.shiftType` is the match on
the Option (both ShiftType values are truthy strings in JS). -/
def calculateShiftState (staff : StaffMember) (day : DayStatus) : ShiftState :=
  let override := findOverride staff day.fullDateStr
  if (override.bind ShiftOverride.isDayOff).getD false then
    ⟨false, .Off, .Dash, "Day Off (Manual)"⟩
  else
    match override.bind ShiftOverride.shiftType with
    | some ShiftType.Half => ⟨true, .Half, .Hollow, "Half Shift (Manual)"⟩
    | some ShiftType.Normal => ⟨true, .Normal, .Solid, "Normal Shift (Manual)"⟩
    | none =>
        if isStaffWorking staff day.fullDateStr then
          ⟨true, .Normal, .Solid, "Normal Shift"⟩
        else
          ⟨false, .Off, .Dash, "Off"⟩

/-- Embeds `getShiftTimes` (lines 118-123). The JS guard
`override?.startTime && override?.endTime` is truthy only when both fields
are present and nonempty, modelled by `getD ""` against the empty string. -/
def getShiftTimes (staff : StaffMember) (dateStr : String) (shiftType : ShiftType) :
    String × String :=
  let override := findOverride staff dateStr
  if (override.bind ShiftOverride.startTime).getD "" ≠ "" ∧
      (override.bind ShiftOverride.endTime).getD "" ≠ "" then
    ((override.bind ShiftOverride.startTime).getD "",
      (override.bind ShiftOverride.endTime).getD "")
  else if shiftType = ShiftType.Half then ("08:00", "13:00")
  else ("08:00", "17:00")

/-- Lines 439 and 445 of handleQuickCycle: `findIndex` of the first override
for the date followed by `splice(idx, 1)`. -/
def removeDateOverride (l : List ShiftOverride) (dateStr : String) :
    List ShiftOverride :=
  match l.findIdx? (fun o => o.date == dateStr) with
  | some i => l.eraseIdx i
  | none => l

/-- Lines 440-443: the three-way successor of the current effective type. -/
def nextQuickState (shiftState : ShiftState) : EffectiveShiftType :=
  if shiftState.shiftType = EffectiveShiftType.Half then .Off
  else if shiftState.shiftType = EffectiveShiftType.Off ∨ shiftState.isWorking = false then
    .Normal
  else .Half

/-- The per-person body of `handleQuickCycle` (lines 438-457): remove any
existing override for the date, then push the override dictated by the next
state (none at all when the base pattern already yields a working day). -/
def quickCycleOverrides (p : StaffMember) (day : DayStatus) (shiftState : ShiftState) :
    List ShiftOverride :=
  let currentOverrides := p.overrides.getD []
  let after := removeDateOverride currentOverrides day.fullDateStr
  match nextQuickState shiftState with
  | .Off => after ++ [⟨day.fullDateStr, none, none, some true, none⟩]
  | .Half =>
      after ++ [⟨day.fullDateStr, some "08:00", some "13:00", some false,
        some ShiftType.Half⟩]
  | .Normal =>
      if isStaffWorking p day.fullDateStr then after
      else
        after ++ [⟨day.fullDateStr, some "08:00", some "17:00", some false,
          some ShiftType.Normal⟩]

/-- Embeds `handleQuickCycle` (lines 434-460) over the whole staff list. -/
def handleQuickCycle (staff : List StaffMember) (person : StaffMember)
    (day : DayStatus) (shiftState : ShiftState) : List StaffMember :=
  staff.map fun p =>
    if p.id == person.id then
      { p with overrides := some (quickCycleOverrides p day shiftState) }
    else p

/-- One admin click as wired in handleShiftClick (lines 462-466): the shift
state handed to handleQuickCycle is the one calculateShiftState computed. -/
def quickCycleStep (p : StaffMember) (day : DayStatus) : StaffMember :=
  { p with overrides := some (quickCycleOverrides p day (calculateShiftState p day)) }

/-! Concrete records used by the witness theorems. -/

/-- Pattern 3 on / 4 off anchored at 2024-01-01, no overrides. -/
def egStaff34 : StaffMember :=
  ⟨"s1", "Amari", "Nurse", "2024-01-01", 3, 4, ShiftType.Normal,
    EmploymentStatus.Permanent, none⟩

/-- Pattern 5 on / 2 off anchored at 2024-01-01, no overrides. -/
def egStaff52 : StaffMember :=
  ⟨"s2", "Bakari", "Guard", "2024-01-01", 5, 2, ShiftType.Normal,
    EmploymentStatus.Casual, none⟩

/-- A manual day-off override for 2024-01-08. -/
def egOverrideOff : ShiftOverride := ⟨"2024-01-08", none, none, some true, none⟩

/-- A manual half-shift override for 2024-01-08. -/
def egOverrideHalf : ShiftOverride :=
  ⟨"2024-01-08", none, none, none, some ShiftType.Half⟩

/-- An override for 2024-01-08 carrying explicit times only. -/
def egOverrideTimes : ShiftOverride :=
  ⟨"2024-01-08", some "09:00", some "14:00", none, none⟩

/-- The 5/2 staff member with the day-off override installed. -/
def egStaffOff : StaffMember := { egStaff52 with overrides := some [egOverrideOff] }

/-- The 5/2 staff member with the half-shift override installed. -/
def egStaffHalf : StaffMember := { egStaff52 with overrides := some [egOverrideHalf] }

/-- The 5/2 staff member with the explicit-times override installed. -/
def egStaffTimes : StaffMember := { egStaff52 with overrides := some [egOverrideTimes] }

/-- Monday 2024-01-08, one full cycle after the anchor. -/
def egDay : DayStatus := ⟨false, "MON", 8, "2024-01-08"⟩

end Roster

/-! Helper lemmas shared by the claim theorems. -/

namespace Roster

/-- JS truncated remainder stays strictly above the negated (positive)
divisor; together with Int.tmod_lt_of_pos this brackets it in (-L, L). -/
theorem tmod_lower_bound (x : Int) {L : Int} (hL : 0 < L) : -L ≤ x.tmod L := by
  cases x with
  | ofNat n =>
      have h0 : 0 ≤ Int.tmod (Int.ofNat n) L := Int.tmod_nonneg L (Int.ofNat_nonneg n)
      omega
  | negSucc m =>
      obtain ⟨k, rfl⟩ : ∃ k : Nat, L = Int.ofNat (k + 1) := by
        match L, hL with
        | Int.ofNat (k + 1), _ => exact ⟨k, rfl⟩
      have h : Int.tmod (Int.negSucc m) (Int.ofNat (k + 1)) =
          -Int.ofNat ((m + 1) % (k + 1)) := rfl
      rw [h]
      have h2 : (m + 1) % (k + 1) < k + 1 := Nat.mod_lt _ (Nat.succ_pos k)
      exact Int.neg_le_neg (Int.ofNat_le.mpr (Nat.le_of_lt h2))

/-- The double-remainder normalization of line 83 computes the mathematical
(euclidean) remainder: `((x % L) + L) % L = x mod L` for positive L. -/
theorem tmod_normalize (x : Int) {L : Int} (hL : 0 < L) :
    (x.tmod L + L).tmod L = x % L := by
  have h1 : 0 ≤ x.tmod L + L := by
    have := tmod_lower_bound x hL
    omega
  rw [Int.tmod_eq_emod h1 (Int.le_of_lt hL)]
  have h2 : x.tmod L + L = x + L * (1 - x.tdiv L) := by
    rw [Int.tmod_def]
    ring
  rw [h2, Int.add_mul_emod_self_left]

/-- isStaffWorking reads only the cycle fields, never the override list. -/
theorem isStaffWorking_set_overrides (p : StaffMember) (v : Option (List ShiftOverride))
    (d : String) : isStaffWorking { p with overrides := v } d = isStaffWorking p d := rfl

theorem findOverride_set_overrides (p : StaffMember) (l : List ShiftOverride)
    (d : String) :
    findOverride { p with overrides := some l } d = l.find? (fun o => o.date == d) := rfl

theorem removeDateOverride_nil (d : String) : removeDateOverride [] d = [] := rfl

theorem removeDateOverride_cons_pos (a : ShiftOverride) (l : List ShiftOverride)
    (d : String) (h : a.date = d) : removeDateOverride (a :: l) d = l := by
  simp [removeDateOverride, List.findIdx?_cons, h]

theorem removeDateOverride_cons_neg (a : ShiftOverride) (l : List ShiftOverride)
    (d : String) (h : ¬a.date = d) :
    removeDateOverride (a :: l) d = a :: removeDateOverride l d := by
  have hb : (a.date == d) = false := by simp [h]
  simp only [removeDateOverride, List.findIdx?_cons, hb, if_false, List.findIdx?_start_succ]
  cases hidx : l.findIdx? (fun o => o.date == d) with
  | none => simp
  | some i => simp

/-- Removing the override of a date that does not occur leaves the list as is. -/
theorem removeDateOverride_of_not_mem (l : List ShiftOverride) (d : String)
    (h : ∀ o ∈ l, ¬o.date = d) : removeDateOverride l d = l := by
  induction l with
  | nil => rfl
  | cons a l ih =>
      rw [removeDateOverride_cons_neg a l d (h a (List.mem_cons_self a l))]
      rw [ih fun o ho => h o (List.mem_cons_of_mem a ho)]

/-- Removing the date of a freshly appended override recovers the original
list, provided the original list had no entry for that date. -/
theorem removeDateOverride_append_single (l : List ShiftOverride) (x : ShiftOverride)
    (d : String) (h : ∀ o ∈ l, ¬o.date = d) (hx : x.date = d) :
    removeDateOverride (l ++ [x]) d = l := by
  induction l with
  | nil => simpa using removeDateOverride_cons_pos x [] d hx
  | cons a l ih =>
      rw [List.cons_append,
        removeDateOverride_cons_neg a (l ++ [x]) d (h a (List.mem_cons_self a l)),
        ih fun o ho => h o (List.mem_cons_of_mem a ho)]

/-- findOverride normalized through getD: an absent override list behaves as
the empty list. -/
theorem findOverride_eq (q : StaffMember) (d : String) :
    findOverride q d = (q.overrides.getD []).find? (fun o => o.date == d) := by
  cases h : q.overrides with
  | none => simp [findOverride, h]
  | some l => simp [findOverride, h]

theorem overrides_quickCycleStep (p : StaffMember) (day : DayStatus) :
    (quickCycleStep p day).overrides =
      some (quickCycleOverrides p day (calculateShiftState p day)) := rfl

theorem isStaffWorking_quickCycleStep (p : StaffMember) (day : DayStatus) (d : String) :
    isStaffWorking (quickCycleStep p day) d = isStaffWorking p d := rfl

/-- After the findIndex/splice removal, a list with pairwise-distinct dates
has no remaining entry for the removed date. -/
theorem find?_removeDateOverride (l : List ShiftOverride) (d : String)
    (h : l.Pairwise fun a b => a.date ≠ b.date) :
    (removeDateOverride l d).find? (fun o => o.date == d) = none := by
  induction l with
  | nil => rfl
  | cons a l ih =>
      by_cases ha : a.date = d
      · rw [removeDateOverride_cons_pos a l d ha]
        apply List.find?_eq_none.mpr
        intro x hx
        have hxd : d ≠ x.date := ha ▸ (List.pairwise_cons.mp h).1 x hx
        simp only [beq_iff_eq]
        exact fun e => hxd e.symm
      · rw [removeDateOverride_cons_neg a l d ha,
          List.find?_cons_of_neg _ (by simp [ha])]
        exact ih (List.pairwise_cons.mp h).2

/-- A present-but-not-true isDayOff field defaults to false under truthiness. -/
theorem isDayOff_getD_false (o : ShiftOverride) (h1 : o.isDayOff ≠ some true) :
    o.isDayOff.getD false = false := by
  cases hb : o.isDayOff with
  | none => rfl
  | some b =>
      cases b with
      | false => rfl
      | true => exact absurd hb h1

/-! Claim theorems. -/

/-- Claim C1: for every staff member with patternOn + patternOff ≥ 1 and every
parseable target date (including dates strictly before cycleStartDate),
isStaffWorking computes diffDays as the number of whole calendar days from
cycleStartDate to the target date, computes dayInCycle as
((diffDays % cycleLength) + cycleLength) % cycleLength with cycleLength =
patternOn + patternOff, this dayInCycle always lies in [0, cycleLength), and
the function returns true iff dayInCycle < patternOn. -/
theorem isStaffWorking_spec (staff : StaffMember) (targetDateStr : String)
    (cs t : Nat × Nat × Nat)
    (hcs : parseDate staff.cycleStartDate = some cs)
    (ht : parseDate targetDateStr = some t)
    (hL : 1 ≤ staff.patternOn + staff.patternOff) :
    ∃ dd dic : Int,
      diffDays staff targetDateStr = some dd ∧
      dd = civilOf t - civilOf cs ∧
      dayInCycle staff targetDateStr = some dic ∧
      dic = (dd.tmod (totalCycleLength staff) + totalCycleLength staff).tmod
        (totalCycleLength staff) ∧
      0 ≤ dic ∧ dic < totalCycleLength staff ∧
      (isStaffWorking staff targetDateStr = true ↔ dic < (staff.patternOn : Int)) := by
  have hL0 : 0 < totalCycleLength staff := by
    unfold totalCycleLength
    omega
  have hms : msPerDay ≠ 0 := by norm_num [msPerDay]
  have hdd : diffDays staff targetDateStr = some (civilOf t - civilOf cs) := by
    unfold diffDays
    simp only [hcs, ht, ← sub_mul, Int.mul_fdiv_cancel _ hms]
  have hdic : dayInCycle staff targetDateStr =
      some (((civilOf t - civilOf cs).tmod (totalCycleLength staff) +
        totalCycleLength staff).tmod (totalCycleLength staff)) := by
    unfold dayInCycle
    rw [hdd]
    rfl
  refine ⟨civilOf t - civilOf cs,
    ((civilOf t - civilOf cs).tmod (totalCycleLength staff) +
      totalCycleLength staff).tmod (totalCycleLength staff),
    hdd, rfl, hdic, rfl, ?_, ?_, ?_⟩
  · rw [tmod_normalize _ hL0]
    exact Int.emod_nonneg _ (Int.ne_of_gt hL0)
  · rw [tmod_normalize _ hL0]
    exact Int.emod_lt_of_pos _ hL0
  · unfold isStaffWorking
    rw [hdic]
    simp

/-- Witness for C1: the 3-on/4-off staff member evaluated exactly three cycles
before the anchor date. -/
theorem isStaffWorking_spec_witness :
    parseDate egStaff34.cycleStartDate = some (2024, 1, 1) ∧
    parseDate "2023-12-11" = some (2023, 12, 11) ∧
    1 ≤ egStaff34.patternOn + egStaff34.patternOff ∧
    (∃ dd dic : Int,
      diffDays egStaff34 "2023-12-11" = some dd ∧
      dd = civilOf (2023, 12, 11) - civilOf (2024, 1, 1) ∧
      dayInCycle egStaff34 "2023-12-11" = some dic ∧
      dic = (dd.tmod (totalCycleLength egStaff34) + totalCycleLength egStaff34).tmod
        (totalCycleLength egStaff34) ∧
      0 ≤ dic ∧ dic < totalCycleLength egStaff34 ∧
      (isStaffWorking egStaff34 "2023-12-11" = true ↔
        dic < (egStaff34.patternOn : Int))) :=
  ⟨by decide, by decide, by decide,
    isStaffWorking_spec egStaff34 "2023-12-11" (2024, 1, 1) (2023, 12, 11)
      (by decide) (by decide) (by decide)⟩

/-- Claim C2: a day-off override wins outright (Off, Dash, "Day Off (Manual)")
regardless of the pattern and of any shiftType on the same record; otherwise a
shiftType override forces a working day even on a pattern off-day, Half giving
Hollow with "Half Shift (Manual)" and the only other value, Normal, giving
Solid with "Normal Shift (Manual)". -/
theorem calculateShiftState_override_spec (staff : StaffMember) (day : DayStatus)
    (o : ShiftOverride) (ho : findOverride staff day.fullDateStr = some o) :
    (o.isDayOff = some true →
      calculateShiftState staff day =
        ⟨false, EffectiveShiftType.Off, VisualType.Dash, "Day Off (Manual)"⟩) ∧
    (o.isDayOff ≠ some true → o.shiftType = some ShiftType.Half →
      calculateShiftState staff day =
        ⟨true, EffectiveShiftType.Half, VisualType.Hollow, "Half Shift (Manual)"⟩) ∧
    (o.isDayOff ≠ some true → o.shiftType = some ShiftType.Normal →
      calculateShiftState staff day =
        ⟨true, EffectiveShiftType.Normal, VisualType.Solid,
          "Normal Shift (Manual)"⟩) := by
  refine ⟨fun h1 => ?_, fun h1 h2 => ?_, fun h1 h2 => ?_⟩
  · simp [calculateShiftState, ho, h1]
  · simp [calculateShiftState, ho, isDayOff_getD_false o h1, h2]
  · simp [calculateShiftState, ho, isDayOff_getD_false o h1, h2]

/-- Witness for C2: the 5/2 staff member with a day-off override on
2024-01-08, a day the pattern would have working. -/
theorem calculateShiftState_override_spec_witness :
    findOverride egStaffOff egDay.fullDateStr = some egOverrideOff ∧
    ((egOverrideOff.isDayOff = some true →
      calculateShiftState egStaffOff egDay =
        ⟨false, EffectiveShiftType.Off, VisualType.Dash, "Day Off (Manual)"⟩) ∧
    (egOverrideOff.isDayOff ≠ some true →
      egOverrideOff.shiftType = some ShiftType.Half →
      calculateShiftState egStaffOff egDay =
        ⟨true, EffectiveShiftType.Half, VisualType.Hollow, "Half Shift (Manual)"⟩) ∧
    (egOverrideOff.isDayOff ≠ some true →
      egOverrideOff.shiftType = some ShiftType.Normal →
      calculateShiftState egStaffOff egDay =
        ⟨true, EffectiveShiftType.Normal, VisualType.Solid,
          "Normal Shift (Manual)"⟩)) :=
  ⟨by decide, calculateShiftState_override_spec egStaffOff egDay egOverrideOff (by decide)⟩

/-- Claim C3: with no applicable override (none for the date, or one with
neither isDayOff = true nor a shiftType), calculateShiftState follows the
pattern: not working gives (Off, Dash, "Off") and working gives
(Normal, Solid, "Normal Shift"). -/
theorem calculateShiftState_pattern_spec (staff : StaffMember) (day : DayStatus)
    (h : findOverride staff day.fullDateStr = none ∨
      ∃ o, findOverride staff day.fullDateStr = some o ∧ o.isDayOff ≠ some true ∧
        o.shiftType = none) :
    calculateShiftState staff day =
      if isStaffWorking staff day.fullDateStr then
        ⟨true, EffectiveShiftType.Normal, VisualType.Solid, "Normal Shift"⟩
      else ⟨false, EffectiveShiftType.Off, VisualType.Dash, "Off"⟩ := by
  rcases h with h | ⟨o, ho, h1, h2⟩
  · simp [calculateShiftState, h]
  · simp [calculateShiftState, ho, isDayOff_getD_false o h1, h2]

/-- Witness for C3: the override-free 5/2 staff member on 2024-01-08, a
pattern working day. -/
theorem calculateShiftState_pattern_spec_witness :
    (findOverride egStaff52 egDay.fullDateStr = none ∨
      ∃ o, findOverride egStaff52 egDay.fullDateStr = some o ∧
        o.isDayOff ≠ some true ∧ o.shiftType = none) ∧
    calculateShiftState egStaff52 egDay =
      (if isStaffWorking egStaff52 egDay.fullDateStr then
        ⟨true, EffectiveShiftType.Normal, VisualType.Solid, "Normal Shift"⟩
      else ⟨false, EffectiveShiftType.Off, VisualType.Dash, "Off"⟩) :=
  ⟨Or.inl (by decide),
    calculateShiftState_pattern_spec egStaff52 egDay (Or.inl (by decide))⟩

/-- Claim C6: an override carrying both an explicit (nonempty) start and end
time is returned verbatim by getShiftTimes; otherwise the result is a fixed
default window determined solely by the shiftType argument: Half gives
08:00-13:00 and the only other value, Normal, gives 08:00-17:00. -/
theorem getShiftTimes_spec (staff : StaffMember) (dateStr : String) (st : ShiftType) :
    (∀ o s e, findOverride staff dateStr = some o → o.startTime = some s →
      o.endTime = some e → s ≠ "" → e ≠ "" →
      getShiftTimes staff dateStr st = (s, e)) ∧
    ((∀ o, findOverride staff dateStr = some o →
        o.startTime.getD "" = "" ∨ o.endTime.getD "" = "") →
      getShiftTimes staff dateStr st =
        if st = ShiftType.Half then ("08:00", "13:00") else ("08:00", "17:00")) := by
  constructor
  · intro o s e ho hs he hs' he'
    simp [getShiftTimes, ho, hs, he, hs', he']
  · intro h
    cases hov : findOverride staff dateStr with
    | none => simp [getShiftTimes, hov]
    | some o =>
        rcases h o hov with h1 | h1
        · simp [getShiftTimes, hov, h1]
        · simp [getShiftTimes, hov, h1]

/-- Witness for C6: the explicit-times override is returned verbatim, and the
override-free staff member gets the Half default window. -/
theorem getShiftTimes_spec_witness :
    getShiftTimes egStaffTimes egDay.fullDateStr ShiftType.Normal = ("09:00", "14:00") ∧
    getShiftTimes egStaff52 egDay.fullDateStr ShiftType.Half =
      (if ShiftType.Half = ShiftType.Half then ("08:00", "13:00")
       else ("08:00", "17:00")) :=
  ⟨(getShiftTimes_spec egStaffTimes egDay.fullDateStr ShiftType.Normal).1
      egOverrideTimes "09:00" "14:00" (by decide) (by decide) (by decide)
      (by decide) (by decide),
    (getShiftTimes_spec egStaff52 egDay.fullDateStr ShiftType.Half).2
      (fun o ho => Option.noConfusion ho)⟩

/-- Claim C7: on well-formed input (parseable ISO date strings and
patternOn + patternOff ≥ 1) the three calculator operations are total: the
cycle computation never reaches the NaN fallback, and isStaffWorking,
calculateShiftState and getShiftTimes each return a value of their result
type. -/
theorem calculator_total (staff : StaffMember) (day : DayStatus) (st : ShiftType)
    (h1 : (parseDate staff.cycleStartDate).isSome = true)
    (h2 : (parseDate day.fullDateStr).isSome = true)
    (h3 : 1 ≤ staff.patternOn + staff.patternOff) :
    (∃ dic : Int, dayInCycle staff day.fullDateStr = some dic ∧
      isStaffWorking staff day.fullDateStr = decide (dic < (staff.patternOn : Int))) ∧
    (∃ s : ShiftState, calculateShiftState staff day = s) ∧
    (∃ p : String × String, getShiftTimes staff day.fullDateStr st = p) := by
  obtain ⟨cs, hcs⟩ := Option.isSome_iff_exists.mp h1
  obtain ⟨t, ht⟩ := Option.isSome_iff_exists.mp h2
  have hdic : ∃ dic, dayInCycle staff day.fullDateStr = some dic := by
    unfold dayInCycle diffDays
    rw [hcs, ht]
    exact ⟨_, rfl⟩
  obtain ⟨dic, hdic⟩ := hdic
  refine ⟨⟨dic, hdic, ?_⟩, ⟨_, rfl⟩, ⟨_, rfl⟩⟩
  unfold isStaffWorking
  rw [hdic]

/-- Witness for C7 at the 5/2 staff member and 2024-01-08. -/
theorem calculator_total_witness :
    (parseDate egStaff52.cycleStartDate).isSome = true ∧
    (parseDate egDay.fullDateStr).isSome = true ∧
    1 ≤ egStaff52.patternOn + egStaff52.patternOff ∧
    ((∃ dic : Int, dayInCycle egStaff52 egDay.fullDateStr = some dic ∧
      isStaffWorking egStaff52 egDay.fullDateStr =
        decide (dic < (egStaff52.patternOn : Int))) ∧
    (∃ s : ShiftState, calculateShiftState egStaff52 egDay = s) ∧
    (∃ p : String × String,
      getShiftTimes egStaff52 egDay.fullDateStr ShiftType.Normal = p)) :=
  ⟨by decide, by decide, by decide,
    calculator_total egStaff52 egDay ShiftType.Normal (by decide) (by decide)
      (by decide)⟩

/-- Claim C8: calculateShiftState is deterministic: it is a pure function of
the staff record and the day, so any two invocations with identical inputs
yield identical ShiftState outputs (the embedding is functional, so an
invocation cannot modify the staff record, its override list, or any other
state). -/
theorem calculateShiftState_deterministic (s1 s2 : StaffMember) (d1 d2 : DayStatus)
    (hs : s1 = s2) (hd : d1 = d2) :
    calculateShiftState s1 d1 = calculateShiftState s2 d2 := by
  subst hs
  subst hd
  rfl

/-- Witness for C8 at the 5/2 staff member and 2024-01-08. -/
theorem calculateShiftState_deterministic_witness :
    egStaff52 = egStaff52 ∧ egDay = egDay ∧
    calculateShiftState egStaff52 egDay = calculateShiftState egStaff52 egDay :=
  ⟨rfl, rfl, calculateShiftState_deterministic egStaff52 egStaff52 egDay egDay rfl rfl⟩

/-- calculateShiftState only ever produces one of its five literal results. -/
theorem calculateShiftState_cases (staff : StaffMember) (day : DayStatus) :
    calculateShiftState staff day =
      ⟨false, EffectiveShiftType.Off, VisualType.Dash, "Day Off (Manual)"⟩ ∨
    calculateShiftState staff day =
      ⟨true, EffectiveShiftType.Half, VisualType.Hollow, "Half Shift (Manual)"⟩ ∨
    calculateShiftState staff day =
      ⟨true, EffectiveShiftType.Normal, VisualType.Solid, "Normal Shift (Manual)"⟩ ∨
    calculateShiftState staff day =
      ⟨true, EffectiveShiftType.Normal, VisualType.Solid, "Normal Shift"⟩ ∨
    calculateShiftState staff day =
      ⟨false, EffectiveShiftType.Off, VisualType.Dash, "Off"⟩ := by
  unfold calculateShiftState
  by_cases hb : ((findOverride staff day.fullDateStr).bind ShiftOverride.isDayOff).getD false
  · simp [hb]
  · simp only [hb, Bool.false_eq_true, if_false]
    cases hov : (findOverride staff day.fullDateStr).bind ShiftOverride.shiftType with
    | none =>
        by_cases hw : isStaffWorking staff day.fullDateStr <;> simp [hw]
    | some v => cases v <;> simp

/-- Claim C9: the ShiftState computed for any staff member and day is
internally coherent: working iff shiftType is not Off; Dash exactly when not
working; Hollow exactly when Half; Solid exactly when working with Normal;
and the visual category None is never produced. -/
theorem calculateShiftState_coherent (staff : StaffMember) (day : DayStatus) :
    ((calculateShiftState staff day).isWorking = true ↔
      (calculateShiftState staff day).shiftType ≠ EffectiveShiftType.Off) ∧
    ((calculateShiftState staff day).visualType = VisualType.Dash ↔
      (calculateShiftState staff day).isWorking = false) ∧
    ((calculateShiftState staff day).visualType = VisualType.Hollow ↔
      (calculateShiftState staff day).shiftType = EffectiveShiftType.Half) ∧
    ((calculateShiftState staff day).visualType = VisualType.Solid ↔
      ((calculateShiftState staff day).isWorking = true ∧
        (calculateShiftState staff day).shiftType = EffectiveShiftType.Normal)) ∧
    (calculateShiftState staff day).visualType ≠ VisualType.None := by
  rcases calculateShiftState_cases staff day with h | h | h | h | h <;> rw [h] <;> decide

/-- Claim C10: calculateShiftState never reads the default shiftType field or
the status field: overwriting them changes nothing; in particular a staff
member with default shiftType Half and no override still computes as a Normal
working day on pattern working days. -/
theorem calculateShiftState_ignores_defaults (staff : StaffMember) (day : DayStatus)
    (t : ShiftType) (st : EmploymentStatus) :
    calculateShiftState { staff with shiftType := t, status := st } day =
      calculateShiftState staff day ∧
    (findOverride staff day.fullDateStr = none →
      isStaffWorking staff day.fullDateStr = true →
      calculateShiftState { staff with shiftType := ShiftType.Half, status := st } day =
        ⟨true, EffectiveShiftType.Normal, VisualType.Solid, "Normal Shift"⟩) := by
  constructor
  · rfl
  · intro h1 h2
    have e : calculateShiftState { staff with shiftType := ShiftType.Half, status := st }
        day = calculateShiftState staff day := rfl
    rw [e]
    simp [calculateShiftState, h1, h2]

/-- Witness for C10 at the 5/2 staff member and 2024-01-08. -/
theorem calculateShiftState_ignores_defaults_witness :
    findOverride egStaff52 egDay.fullDateStr = none ∧
    isStaffWorking egStaff52 egDay.fullDateStr = true ∧
    (calculateShiftState
        { egStaff52 with shiftType := ShiftType.Half, status := EmploymentStatus.Casual }
        egDay = calculateShiftState egStaff52 egDay ∧
      (findOverride egStaff52 egDay.fullDateStr = none →
        isStaffWorking egStaff52 egDay.fullDateStr = true →
        calculateShiftState
          { egStaff52 with shiftType := ShiftType.Half, status := EmploymentStatus.Casual }
          egDay =
          ⟨true, EffectiveShiftType.Normal, VisualType.Solid, "Normal Shift"⟩)) :=
  ⟨by decide, by decide,
    calculateShiftState_ignores_defaults egStaff52 egDay ShiftType.Half
      EmploymentStatus.Casual⟩

/-- Claim C4: the quick-cycle operation advances Normal to Half, Half to Off,
and Off or not-working to Normal, and writes or replaces the single override
entry for the date: advancing to Off writes isDayOff = true; advancing to
Half writes the Half defaults with shiftType Half; advancing to Normal when
the base pattern already yields a working Normal day merely clears any
existing override for the date and writes nothing, and otherwise results in
an override forcing a working Normal day. -/
theorem handleQuickCycle_spec (p : StaffMember) (day : DayStatus) (s : ShiftState)
    (huniq : (p.overrides.getD []).Pairwise fun a b => a.date ≠ b.date) :
    (s.shiftType = EffectiveShiftType.Normal → s.isWorking = true →
      quickCycleOverrides p day s =
        removeDateOverride (p.overrides.getD []) day.fullDateStr ++
          [⟨day.fullDateStr, some "08:00", some "13:00", some false,
            some ShiftType.Half⟩]) ∧
    (s.shiftType = EffectiveShiftType.Half →
      quickCycleOverrides p day s =
        removeDateOverride (p.overrides.getD []) day.fullDateStr ++
          [⟨day.fullDateStr, none, none, some true, none⟩]) ∧
    ((s.shiftType = EffectiveShiftType.Off ∨ s.isWorking = false) →
      s.shiftType ≠ EffectiveShiftType.Half →
      (isStaffWorking p day.fullDateStr = true →
        quickCycleOverrides p day s =
          removeDateOverride (p.overrides.getD []) day.fullDateStr) ∧
      (isStaffWorking p day.fullDateStr = false →
        quickCycleOverrides p day s =
          removeDateOverride (p.overrides.getD []) day.fullDateStr ++
            [⟨day.fullDateStr, some "08:00", some "17:00", some false,
              some ShiftType.Normal⟩] ∧
        calculateShiftState
            { p with overrides := some (quickCycleOverrides p day s) } day =
          ⟨true, EffectiveShiftType.Normal, VisualType.Solid,
            "Normal Shift (Manual)"⟩)) := by
  refine ⟨fun h1 h2 => ?_, fun h1 => ?_, fun h1 h2 => ?_⟩
  · have hn : nextQuickState s = EffectiveShiftType.Half := by
      simp [nextQuickState, h1, h2]
    simp [quickCycleOverrides, hn]
  · have hn : nextQuickState s = EffectiveShiftType.Off := by
      simp [nextQuickState, h1]
    simp [quickCycleOverrides, hn]
  · have hn : nextQuickState s = EffectiveShiftType.Normal := by
      unfold nextQuickState
      rw [if_neg h2, if_pos h1]
    constructor
    · intro hw
      simp [quickCycleOverrides, hn, hw]
    · intro hw
      have hq : quickCycleOverrides p day s =
          removeDateOverride (p.overrides.getD []) day.fullDateStr ++
            [⟨day.fullDateStr, some "08:00", some "17:00", some false,
              some ShiftType.Normal⟩] := by
        simp [quickCycleOverrides, hn, hw]
      refine ⟨hq, ?_⟩
      have hfind : findOverride
          { p with overrides := some (quickCycleOverrides p day s) }
          day.fullDateStr =
          some ⟨day.fullDateStr, some "08:00", some "17:00", some false,
            some ShiftType.Normal⟩ := by
        rw [hq, findOverride_set_overrides, List.find?_append,
          find?_removeDateOverride _ _ huniq]
        simp
      simp [calculateShiftState, hfind]

/-- Witness for C4: the override-free 5/2 staff member on 2024-01-08 with the
natural working Normal state. -/
theorem handleQuickCycle_spec_witness :
    ((egStaff52.overrides.getD []).Pairwise fun a b => a.date ≠ b.date) ∧
    (((⟨true, EffectiveShiftType.Normal, VisualType.Solid,
          "Normal Shift"⟩ : ShiftState).shiftType = EffectiveShiftType.Normal →
      (⟨true, EffectiveShiftType.Normal, VisualType.Solid,
          "Normal Shift"⟩ : ShiftState).isWorking = true →
      quickCycleOverrides egStaff52 egDay
          ⟨true, EffectiveShiftType.Normal, VisualType.Solid, "Normal Shift"⟩ =
        removeDateOverride (egStaff52.overrides.getD []) egDay.fullDateStr ++
          [⟨egDay.fullDateStr, some "08:00", some "13:00", some false,
            some ShiftType.Half⟩]) ∧
    ((⟨true, EffectiveShiftType.Normal, VisualType.Solid,
          "Normal Shift"⟩ : ShiftState).shiftType = EffectiveShiftType.Half →
      quickCycleOverrides egStaff52 egDay
          ⟨true, EffectiveShiftType.Normal, VisualType.Solid, "Normal Shift"⟩ =
        removeDateOverride (egStaff52.overrides.getD []) egDay.fullDateStr ++
          [⟨egDay.fullDateStr, none, none, some true, none⟩]) ∧
    (((⟨true, EffectiveShiftType.Normal, VisualType.Solid,
          "Normal Shift"⟩ : ShiftState).shiftType = EffectiveShiftType.Off ∨
        (⟨true, EffectiveShiftType.Normal, VisualType.Solid,
          "Normal Shift"⟩ : ShiftState).isWorking = false) →
      (⟨true, EffectiveShiftType.Normal, VisualType.Solid,
          "Normal Shift"⟩ : ShiftState).shiftType ≠ EffectiveShiftType.Half →
      (isStaffWorking egStaff52 egDay.fullDateStr = true →
        quickCycleOverrides egStaff52 egDay
            ⟨true, EffectiveShiftType.Normal, VisualType.Solid, "Normal Shift"⟩ =
          removeDateOverride (egStaff52.overrides.getD []) egDay.fullDateStr) ∧
      (isStaffWorking egStaff52 egDay.fullDateStr = false →
        quickCycleOverrides egStaff52 egDay
            ⟨true, EffectiveShiftType.Normal, VisualType.Solid, "Normal Shift"⟩ =
          removeDateOverride (egStaff52.overrides.getD []) egDay.fullDateStr ++
            [⟨egDay.fullDateStr, some "08:00", some "17:00", some false,
              some ShiftType.Normal⟩] ∧
        calculateShiftState
            { egStaff52 with overrides := some (quickCycleOverrides egStaff52 egDay
              ⟨true, EffectiveShiftType.Normal, VisualType.Solid, "Normal Shift"⟩) }
            egDay =
          ⟨true, EffectiveShiftType.Normal, VisualType.Solid,
            "Normal Shift (Manual)"⟩))) :=
  ⟨List.Pairwise.nil,
    handleQuickCycle_spec egStaff52 egDay
      ⟨true, EffectiveShiftType.Normal, VisualType.Solid, "Normal Shift"⟩
      List.Pairwise.nil⟩

/-- Claim C5: from a naturally working Normal day (no override for the date),
three successive quick-cycle applications produce Half, then Off, then a
state equal to the original natural working Normal state, with no override
remaining for that date. -/
theorem quickCycle_triple (p : StaffMember) (day : DayStatus)
    (h1 : findOverride p day.fullDateStr = none)
    (h2 : isStaffWorking p day.fullDateStr = true) :
    calculateShiftState p day =
      ⟨true, EffectiveShiftType.Normal, VisualType.Solid, "Normal Shift"⟩ ∧
    calculateShiftState (quickCycleStep p day) day =
      ⟨true, EffectiveShiftType.Half, VisualType.Hollow, "Half Shift (Manual)"⟩ ∧
    calculateShiftState (quickCycleStep (quickCycleStep p day) day) day =
      ⟨false, EffectiveShiftType.Off, VisualType.Dash, "Day Off (Manual)"⟩ ∧
    findOverride (quickCycleStep (quickCycleStep (quickCycleStep p day) day) day)
      day.fullDateStr = none ∧
    calculateShiftState
        (quickCycleStep (quickCycleStep (quickCycleStep p day) day) day) day =
      calculateShiftState p day := by
  have hl : (p.overrides.getD []).find? (fun o => o.date == day.fullDateStr) = none := by
    rw [← findOverride_eq]
    exact h1
  have hmem : ∀ o ∈ p.overrides.getD [], ¬o.date = day.fullDateStr := by
    intro o ho
    have hfo := List.find?_eq_none.mp hl o ho
    simpa [beq_iff_eq] using hfo
  have hs0 : calculateShiftState p day =
      ⟨true, EffectiveShiftType.Normal, VisualType.Solid, "Normal Shift"⟩ := by
    simp [calculateShiftState, h1, h2]
  have hq1 : quickCycleOverrides p day (calculateShiftState p day) =
      p.overrides.getD [] ++
        [⟨day.fullDateStr, some "08:00", some "13:00", some false,
          some ShiftType.Half⟩] := by
    rw [hs0]
    have hn : nextQuickState
        ⟨true, EffectiveShiftType.Normal, VisualType.Solid, "Normal Shift"⟩ =
        EffectiveShiftType.Half := by decide
    simp [quickCycleOverrides, hn, removeDateOverride_of_not_mem _ _ hmem]
  have hov1 : (quickCycleStep p day).overrides.getD [] =
      p.overrides.getD [] ++
        [⟨day.fullDateStr, some "08:00", some "13:00", some false,
          some ShiftType.Half⟩] := by
    rw [overrides_quickCycleStep, Option.getD_some, hq1]
  have hf1 : findOverride (quickCycleStep p day) day.fullDateStr =
      some ⟨day.fullDateStr, some "08:00", some "13:00", some false,
        some ShiftType.Half⟩ := by
    rw [findOverride_eq, hov1, List.find?_append, hl]
    simp
  have hs1 : calculateShiftState (quickCycleStep p day) day =
      ⟨true, EffectiveShiftType.Half, VisualType.Hollow, "Half Shift (Manual)"⟩ := by
    simp [calculateShiftState, hf1]
  have hq2 : quickCycleOverrides (quickCycleStep p day) day
      (calculateShiftState (quickCycleStep p day) day) =
      p.overrides.getD [] ++ [⟨day.fullDateStr, none, none, some true, none⟩] := by
    rw [hs1]
    have hn : nextQuickState
        ⟨true, EffectiveShiftType.Half, VisualType.Hollow, "Half Shift (Manual)"⟩ =
        EffectiveShiftType.Off := by decide
    simp only [quickCycleOverrides, hn, hov1]
    rw [removeDateOverride_append_single _ _ _ hmem rfl]
  have hov2 : (quickCycleStep (quickCycleStep p day) day).overrides.getD [] =
      p.overrides.getD [] ++ [⟨day.fullDateStr, none, none, some true, none⟩] := by
    rw [overrides_quickCycleStep, Option.getD_some, hq2]
  have hf2 : findOverride (quickCycleStep (quickCycleStep p day) day)
      day.fullDateStr = some ⟨day.fullDateStr, none, none, some true, none⟩ := by
    rw [findOverride_eq, hov2, List.find?_append, hl]
    simp
  have hs2 : calculateShiftState (quickCycleStep (quickCycleStep p day) day) day =
      ⟨false, EffectiveShiftType.Off, VisualType.Dash, "Day Off (Manual)"⟩ := by
    simp [calculateShiftState, hf2]
  have hw2 : isStaffWorking (quickCycleStep (quickCycleStep p day) day)
      day.fullDateStr = true := by
    rw [isStaffWorking_quickCycleStep, isStaffWorking_quickCycleStep]
    exact h2
  have hq3 : quickCycleOverrides (quickCycleStep (quickCycleStep p day) day) day
      (calculateShiftState (quickCycleStep (quickCycleStep p day) day) day) =
      p.overrides.getD [] := by
    rw [hs2]
    have hn : nextQuickState
        ⟨false, EffectiveShiftType.Off, VisualType.Dash, "Day Off (Manual)"⟩ =
        EffectiveShiftType.Normal := by decide
    simp only [quickCycleOverrides, hn, hov2, hw2, if_true]
    rw [removeDateOverride_append_single _ _ _ hmem rfl]
  have hov3 : (quickCycleStep (quickCycleStep (quickCycleStep p day) day) day).overrides.getD
      [] = p.overrides.getD [] := by
    rw [overrides_quickCycleStep, Option.getD_some, hq3]
  have hf3 : findOverride (quickCycleStep (quickCycleStep (quickCycleStep p day) day) day)
      day.fullDateStr = none := by
    rw [findOverride_eq, hov3]
    exact hl
  have hw3 : isStaffWorking (quickCycleStep (quickCycleStep (quickCycleStep p day) day) day)
      day.fullDateStr = true := by
    rw [isStaffWorking_quickCycleStep, isStaffWorking_quickCycleStep,
      isStaffWorking_quickCycleStep]
    exact h2
  have hs3 : calculateShiftState
      (quickCycleStep (quickCycleStep (quickCycleStep p day) day) day) day =
      ⟨true, EffectiveShiftType.Normal, VisualType.Solid, "Normal Shift"⟩ := by
    simp [calculateShiftState, hf3, hw3]
  exact ⟨hs0, hs1, hs2, hf3, by rw [hs3, hs0]⟩

/-- Witness for C5 at the override-free 5/2 staff member and 2024-01-08. -/
theorem quickCycle_triple_witness :
    findOverride egStaff52 egDay.fullDateStr = none ∧
    isStaffWorking egStaff52 egDay.fullDateStr = true ∧
    (calculateShiftState egStaff52 egDay =
      ⟨true, EffectiveShiftType.Normal, VisualType.Solid, "Normal Shift"⟩ ∧
    calculateShiftState (quickCycleStep egStaff52 egDay) egDay =
      ⟨true, EffectiveShiftType.Half, VisualType.Hollow, "Half Shift (Manual)"⟩ ∧
    calculateShiftState (quickCycleStep (quickCycleStep egStaff52 egDay) egDay) egDay =
      ⟨false, EffectiveShiftType.Off, VisualType.Dash, "Day Off (Manual)"⟩ ∧
    findOverride
      (quickCycleStep (quickCycleStep (quickCycleStep egStaff52 egDay) egDay) egDay)
      egDay.fullDateStr = none ∧
    calculateShiftState
        (quickCycleStep (quickCycleStep (quickCycleStep egStaff52 egDay) egDay) egDay)
        egDay =
      calculateShiftState egStaff52 egDay) :=
  ⟨by decide, by decide,
    quickCycle_triple egStaff52 egDay (by decide) (by decide)⟩

end Roster
